import Mathlib

/-!
# Dual-sink level routing of `logger.InitLog`

A shallow embedding of `src/logger/log.go`.  `InitLog` builds an encoder
configuration, two level predicates (`infoLevel`, `warnLevel`), two rotating
file sinks (`getWriter`) and a tee of two cores, and wraps the tee in a logger
with caller capture and stack-trace capture from `Warn` upward.

The source is glue over two libraries it imports, `go.uber.org/zap` and
`github.com/natefinch/lumberjack`.  The parts of these libraries that decide
which sink a record reaches and which keys a JSON line carries are modelled in
the namespaces `zapcore`, `zap` and `lumberjack`; what `log.go` itself writes
is in the namespace `logger`.
-/

namespace zapcore

/-- A `zapcore.Level` is a Go `int8`; its comparisons are the integer
comparisons, so a level is embedded as an integer. -/
abbrev Level := Int

def DebugLevel : Level := -1
def InfoLevel : Level := 0
def WarnLevel : Level := 1
def ErrorLevel : Level := 2
def DPanicLevel : Level := 3
def PanicLevel : Level := 4
def FatalLevel : Level := 5

/-- A primitive value appended to a `PrimitiveArrayEncoder`. -/
inductive Prim where
  | int64 (v : Int)
  | str (s : String)
  deriving DecidableEq, Repr

/-- A `PrimitiveArrayEncoder` is embedded as the values appended to it so far. -/
abbrev PrimitiveArrayEncoder := List Prim

/-- The least `int64`. -/
def minInt64 : Int := -9223372036854775808

/-- The greatest `int64`. -/
def maxInt64 : Int := 9223372036854775807

/-- Reduction of an integer to the two's-complement `int64` it is stored as. -/
def wrapInt64 (x : Int) : Int := (x + 9223372036854775808) % 18446744073709551616 - 9223372036854775808

/-- Go's `/` on `int64`: the quotient truncated toward zero, stored as `int64`. -/
def divInt64 (a b : Int) : Int := wrapInt64 (Int.tdiv a b)

def AppendString (s : String) (enc : PrimitiveArrayEncoder) : PrimitiveArrayEncoder :=
  enc ++ [Prim.str s]

def AppendInt64 (v : Int) (enc : PrimitiveArrayEncoder) : PrimitiveArrayEncoder :=
  enc ++ [Prim.int64 v]

/-- A `time.Time`, embedded by its methods `IsZero` (whether it is the zero
time) and `Format` (layout to rendered text). -/
structure Time where
  IsZero : Bool
  Format : String → String

/-- A `time.Duration` is an `int64` count of nanoseconds. -/
abbrev Duration := Int

/-- The caller of a log call: whether the runtime found the frame, and the
result of its `TrimmedPath` method. -/
structure EntryCaller where
  Defined : Bool
  TrimmedPath : String

/-- A log record, `zapcore.Entry`. -/
structure Entry where
  Level : Level
  Time : Time
  LoggerName : String
  Message : String
  Caller : EntryCaller
  Stack : String

/-- A caller-supplied structured field: its key and its value. -/
abbrev Field := String × Prim

/-- The level encoder `zapcore.CapitalLevelEncoder`. -/
def CapitalLevelEncoder (l : Level) (enc : PrimitiveArrayEncoder) : PrimitiveArrayEncoder :=
  AppendString
    (if l = DebugLevel then "DEBUG"
     else if l = InfoLevel then "INFO"
     else if l = WarnLevel then "WARN"
     else if l = ErrorLevel then "ERROR"
     else if l = DPanicLevel then "DPANIC"
     else if l = PanicLevel then "PANIC"
     else if l = FatalLevel then "FATAL"
     else "LEVEL(" ++ toString l ++ ")") enc

/-- The caller encoder `zapcore.ShortCallerEncoder`. -/
def ShortCallerEncoder (c : EntryCaller) (enc : PrimitiveArrayEncoder) : PrimitiveArrayEncoder :=
  AppendString c.TrimmedPath enc

/-- The keys and encoders of `zapcore.EncoderConfig`.  A field that a Go
struct literal leaves out has its zero value: the empty string for a key,
`nil` (here `none`) for an encoder. -/
structure EncoderConfig where
  MessageKey : String := ""
  LevelKey : String := ""
  TimeKey : String := ""
  NameKey : String := ""
  CallerKey : String := ""
  FunctionKey : String := ""
  StacktraceKey : String := ""
  EncodeLevel : Option (Level → PrimitiveArrayEncoder → PrimitiveArrayEncoder) := none
  EncodeTime : Option (Time → PrimitiveArrayEncoder → PrimitiveArrayEncoder) := none
  EncodeDuration : Option (Duration → PrimitiveArrayEncoder → PrimitiveArrayEncoder) := none
  EncodeCaller : Option (EntryCaller → PrimitiveArrayEncoder → PrimitiveArrayEncoder) := none

/-- One member of a JSON line: a key and the values encoded under it. -/
abbrev Member := String × List Prim

/-- Application of an optional encoder to a value, on an empty array. -/
def encodeWith {α : Type} (f : Option (α → PrimitiveArrayEncoder → PrimitiveArrayEncoder))
    (a : α) : List Prim :=
  match f with
  | some g => g a []
  | none => []

/-- The members that the JSON encoder of zap (`jsonEncoder.EncodeEntry`) writes
for a record, in order: a standard part is written only when its key is not
empty (the library documents: if any key is empty, that portion of the entry is
omitted), the time only when it is not the zero time, the logger name only
when the record has one, the caller only when it is defined, the stack trace
only when the record carries one; the caller-supplied fields stand between the
message and the stack trace, as given. -/
def EncodeEntry (cfg : EncoderConfig) (ent : Entry) (fields : List Field) : List Member :=
  (if cfg.LevelKey ≠ "" ∧ cfg.EncodeLevel.isSome then
      [(cfg.LevelKey, encodeWith cfg.EncodeLevel ent.Level)] else [])
  ++ (if cfg.TimeKey ≠ "" ∧ ent.Time.IsZero = false then
      [(cfg.TimeKey, encodeWith cfg.EncodeTime ent.Time)] else [])
  ++ (if ent.LoggerName ≠ "" ∧ cfg.NameKey ≠ "" then
      [(cfg.NameKey, [Prim.str ent.LoggerName])] else [])
  ++ (if ent.Caller.Defined = true then
      (if cfg.CallerKey ≠ "" then [(cfg.CallerKey, encodeWith cfg.EncodeCaller ent.Caller)] else [])
      ++ (if cfg.FunctionKey ≠ "" then [(cfg.FunctionKey, [])] else [])
     else [])
  ++ (if cfg.MessageKey ≠ "" then [(cfg.MessageKey, [Prim.str ent.Message])] else [])
  ++ fields.map (fun f => (f.1, [f.2]))
  ++ (if ent.Stack ≠ "" ∧ cfg.StacktraceKey ≠ "" then
      [(cfg.StacktraceKey, [Prim.str ent.Stack])] else [])

end zapcore

namespace lumberjack

/-- The rotating file sink `lumberjack.Logger`, by its configuration. -/
structure Logger where
  Filename : String
  MaxSize : Int
  MaxBackups : Int
  MaxAge : Int
  LocalTime : Bool
  Compress : Bool
  deriving DecidableEq, Repr

end lumberjack

namespace zapcore

/-- A core made by `zapcore.NewCore`: an encoder, a sink and a level predicate. -/
structure ioCore where
  enc : EncoderConfig
  out : lumberjack.Logger
  LevelEnabler : Level → Bool

/-- The check of a tee (`multiCore.Check`): each core is asked in turn and
joins the checked entry exactly when its level predicate accepts the level. -/
def multiCoreCheck (mc : List ioCore) (ent : Entry) : List ioCore :=
  mc.filter (fun c => c.LevelEnabler ent.Level)

/-- The level test of a tee (`multiCore.Enabled`): some core accepts the level. -/
def multiCoreEnabled (mc : List ioCore) (lvl : Level) : Bool :=
  mc.any (fun c => c.LevelEnabler lvl)

/-- A write to a sink: the sink and the JSON line written to it. -/
abbrev Write := lumberjack.Logger × List Member

/-- The write of a checked entry (`CheckedEntry.Write`): every core that joined
encodes the record with its own encoder and writes the line to its own sink. -/
def checkedWrite (cores : List ioCore) (ent : Entry) (fields : List Field) : List Write :=
  cores.map (fun c => (c.out, EncodeEntry c.enc ent fields))

end zapcore

namespace zap

open zapcore

/-- What the Go runtime supplies at a log call: the clock reading, the caller
frame and the captured stack trace. -/
structure Runtime where
  Now : Time
  Caller : EntryCaller
  Stack : String

/-- The logger `zap.Logger`: a tee of cores, its name, and the options. -/
structure Logger where
  core : List ioCore
  name : String
  addCaller : Bool
  addStack : Level

/-- The logger made by `zap.New(core)` before options: no name, no caller
capture, stack traces from above `Fatal` only. -/
def New (core : List ioCore) : Logger :=
  { core := core, name := "", addCaller := false, addStack := FatalLevel + 1 }

def AddCaller (log : Logger) : Logger := { log with addCaller := true }

def AddStacktrace (lvl : Level) (log : Logger) : Logger := { log with addStack := lvl }

/-- The check of a log call (`Logger.check`): levels below `DPanic` that no core
accepts are dropped at once; otherwise the tee is checked, and when some core
joined, the caller and the stack trace are attached as the options say. -/
def check (log : Logger) (rt : Runtime) (lvl : Level) (msg : String) :
    Option (Entry × List ioCore) :=
  if lvl < DPanicLevel ∧ multiCoreEnabled log.core lvl = false then none
  else
    let ent : Entry :=
      { Level := lvl, Time := rt.Now, LoggerName := log.name, Message := msg,
        Caller := { Defined := false, TrimmedPath := "" }, Stack := "" }
    let cores := multiCoreCheck log.core ent
    if cores.isEmpty then none
    else
      let ent1 : Entry := if log.addCaller then { ent with Caller := rt.Caller } else ent
      let ent2 : Entry := if log.addStack ≤ lvl then { ent1 with Stack := rt.Stack } else ent1
      some (ent2, cores)

/-- A log call at a level with a message and fields: the writes it makes. -/
def log (lg : Logger) (rt : Runtime) (lvl : Level) (msg : String) (fields : List Field) :
    List Write :=
  match check lg rt lvl msg with
  | some (ent, cores) => checkedWrite cores ent fields
  | none => []

end zap

namespace logger

open zapcore

/-- The encoder configuration `config` of `InitLog`. -/
def InitLog.config : EncoderConfig :=
  { MessageKey := "msg",
    LevelKey := "level",
    TimeKey := "time",
    CallerKey := "file",
    EncodeLevel := some CapitalLevelEncoder,
    EncodeCaller := some ShortCallerEncoder,
    EncodeTime := some (fun t enc => AppendString (t.Format "2006-01-02 15:04:05") enc),
    EncodeDuration := some (fun d enc => AppendInt64 (divInt64 d 1000000) enc) }

/-- The level predicate `infoLevel` of `InitLog`. -/
def InitLog.infoLevel (logLevel : Level) (lvl : Level) : Bool :=
  decide (lvl < WarnLevel) && decide (lvl ≥ logLevel)

/-- The level predicate `warnLevel` of `InitLog`. -/
def InitLog.warnLevel (logLevel : Level) (lvl : Level) : Bool :=
  decide (lvl ≥ WarnLevel) && decide (lvl ≥ logLevel)

def getWriter (filename : String) (maxSize maxBackups maxAge : Int) : lumberjack.Logger :=
  { Filename := filename,
    MaxSize := maxSize,
    MaxBackups := maxBackups,
    MaxAge := maxAge,
    LocalTime := true,
    Compress := false }

/-- The logger that `InitLog` stores in `Logger` (and, sugared, in `SugarLogger`). -/
def InitLog (logDir logFile errFile : String) (maxSize maxBackups maxAge : Int)
    (logLevel : Level) : zap.Logger :=
  let infoWriter := getWriter (logDir ++ "/" ++ logFile) maxSize maxBackups maxAge
  let warnWriter := getWriter (logDir ++ "/" ++ errFile) maxSize maxBackups maxAge
  let core : List ioCore :=
    [ { enc := InitLog.config, out := infoWriter, LevelEnabler := InitLog.infoLevel logLevel },
      { enc := InitLog.config, out := warnWriter, LevelEnabler := InitLog.warnLevel logLevel } ]
  zap.AddStacktrace WarnLevel (zap.AddCaller (zap.New core))

/-- A sample runtime reading, used at concrete inputs. -/
def sampleRuntime : zap.Runtime :=
  { Now := { IsZero := false, Format := fun _ => "2024-05-06 07:08:09" },
    Caller := { Defined := true, TrimmedPath := "app/main.go:14" },
    Stack := "main.main\n\t/srv/app/main.go:14" }

/-! ## Shared lemmas -/

theorem infoLevel_eq_true (m S : Level) :
    InitLog.infoLevel m S = true ↔ (S < WarnLevel ∧ m ≤ S) := by
  simp [InitLog.infoLevel]

theorem warnLevel_eq_true (m S : Level) :
    InitLog.warnLevel m S = true ↔ (WarnLevel ≤ S ∧ m ≤ S) := by
  simp [InitLog.warnLevel]

/-- The checked entry of a log call through the logger of InitLog: none when
neither route accepts the level, else the record (with the caller, and with
the stack trace from Warn upward) and the accepting cores. -/
theorem check_InitLog (d f e : String) (a b g : Int) (m S : Level) (rt : zap.Runtime)
    (msg : String) :
    zap.check (InitLog d f e a b g m) rt S msg =
      if (InitLog.infoLevel m S || InitLog.warnLevel m S) = true then
        some ({ Level := S, Time := rt.Now, LoggerName := "", Message := msg, Caller := rt.Caller,
                Stack := if WarnLevel ≤ S then rt.Stack else "" },
              (InitLog d f e a b g m).core.filter (fun c => c.LevelEnabler S))
      else none := by
  unfold zap.check
  simp only [InitLog, zap.AddStacktrace, zap.AddCaller, zap.New, multiCoreEnabled, multiCoreCheck,
    List.any_cons, List.any_nil, List.filter_cons, List.filter_nil]
  by_cases hi : InitLog.infoLevel m S = true <;> by_cases hw : InitLog.warnLevel m S = true
  all_goals simp [hi, hw]
  all_goals (by_cases h : WarnLevel ≤ S <;> simp [h])

/-- The writes of a log call through the logger of InitLog: one write per
accepting route, in the order info, warn, each with the line of the same record. -/
theorem log_InitLog (d f e : String) (a b g : Int) (m S : Level) (rt : zap.Runtime)
    (msg : String) (fields : List Field) :
    zap.log (InitLog d f e a b g m) rt S msg fields =
      (if InitLog.infoLevel m S = true then
        [(getWriter (d ++ "/" ++ f) a b g,
          EncodeEntry InitLog.config
            { Level := S, Time := rt.Now, LoggerName := "", Message := msg, Caller := rt.Caller,
              Stack := if WarnLevel ≤ S then rt.Stack else "" } fields)] else [])
      ++ (if InitLog.warnLevel m S = true then
        [(getWriter (d ++ "/" ++ e) a b g,
          EncodeEntry InitLog.config
            { Level := S, Time := rt.Now, LoggerName := "", Message := msg, Caller := rt.Caller,
              Stack := if WarnLevel ≤ S then rt.Stack else "" } fields)] else []) := by
  unfold zap.log zap.check
  simp only [InitLog, zap.AddStacktrace, zap.AddCaller, zap.New, multiCoreEnabled, multiCoreCheck,
    checkedWrite, List.any_cons, List.any_nil, List.filter_cons, List.filter_nil]
  by_cases hi : InitLog.infoLevel m S = true <;> by_cases hw : InitLog.warnLevel m S = true
  all_goals simp [hi, hw]
  all_goals (by_cases h : WarnLevel ≤ S <;> simp [h])

/-- The line that the encoder configuration of InitLog yields for any record. -/
theorem EncodeEntry_config (ent : Entry) (fields : List Field) :
    EncodeEntry InitLog.config ent fields =
      [("level", CapitalLevelEncoder ent.Level [])]
      ++ (if ent.Time.IsZero = false then
            [("time", [Prim.str (ent.Time.Format "2006-01-02 15:04:05")])] else [])
      ++ (if ent.Caller.Defined = true then [("file", [Prim.str ent.Caller.TrimmedPath])] else [])
      ++ [("msg", [Prim.str ent.Message])]
      ++ fields.map (fun f => (f.1, [f.2])) := by
  simp [EncodeEntry, InitLog.config, encodeWith, ShortCallerEncoder, AppendString]

/-- Truncated division by a million, by the sign of the dividend, in terms of
floor division on non-negative integers. -/
theorem tdiv_million_cases (n : Int) :
    (0 ≤ n ∧ Int.tdiv n 1000000 = n / 1000000) ∨
    (n < 0 ∧ Int.tdiv n 1000000 = -((-n) / 1000000)) := by
  by_cases h : 0 ≤ n
  · exact Or.inl ⟨h, Int.tdiv_eq_ediv h (by decide)⟩
  · right
    refine ⟨by omega, ?_⟩
    have h1 : Int.tdiv (-(-n)) 1000000 = -(Int.tdiv (-n) 1000000) := Int.neg_tdiv (-n) 1000000
    rw [neg_neg] at h1
    rw [h1, Int.tdiv_eq_ediv (by omega) (by decide)]

/-- On an int64 dividend the quotient by a million needs no wrapping. -/
theorem divInt64_million (n : Int) (hlo : minInt64 ≤ n) (hhi : n ≤ maxInt64) :
    divInt64 n 1000000 = Int.tdiv n 1000000 := by
  unfold divInt64 wrapInt64
  unfold minInt64 at hlo
  unfold maxInt64 at hhi
  rcases tdiv_million_cases n with ⟨h0, hq⟩ | ⟨h0, hq⟩
  · rw [hq]; omega
  · rw [hq]; omega

/-! ## The claims -/

/-- C1: for every record severity S and every minimum severity m, the info
route built by InitLog (the level predicate of the first core of the tee) is
the predicate infoLevel, and it accepts S if and only if S is strictly below
Warn and S is at or above m. -/
theorem info_route_accepts_iff (d f e : String) (a b g : Int) (m S : Level) :
    ((InitLog d f e a b g m).core[0]?.map (fun c => c.LevelEnabler)) = some (InitLog.infoLevel m)
    ∧ (InitLog.infoLevel m S = true ↔ (S < WarnLevel ∧ m ≤ S)) :=
  ⟨rfl, infoLevel_eq_true m S⟩

/-- C2: for every record severity S and every minimum severity m, the warn
route built by InitLog (the level predicate of the second core of the tee) is
the predicate warnLevel, and it accepts S if and only if S is at or above Warn
and S is at or above m. -/
theorem warn_route_accepts_iff (d f e : String) (a b g : Int) (m S : Level) :
    ((InitLog d f e a b g m).core[1]?.map (fun c => c.LevelEnabler)) = some (InitLog.warnLevel m)
    ∧ (InitLog.warnLevel m S = true ↔ (WarnLevel ≤ S ∧ m ≤ S)) :=
  ⟨rfl, warnLevel_eq_true m S⟩

/-- C3: the two routes are mutually exclusive: for every severity S and every
minimum severity m the info route and the warn route never both accept S, and
a log call through the logger of InitLog makes at most one write. -/
theorem routes_mutually_exclusive (d f e : String) (a b g : Int) (m S : Level)
    (rt : zap.Runtime) (msg : String) (fields : List Field) :
    ¬ (InitLog.infoLevel m S = true ∧ InitLog.warnLevel m S = true)
    ∧ (zap.log (InitLog d f e a b g m) rt S msg fields).length ≤ 1 := by
  have hex : ¬ (InitLog.infoLevel m S = true ∧ InitLog.warnLevel m S = true) := by
    rw [infoLevel_eq_true, warnLevel_eq_true]
    simp only [Level, WarnLevel] at *
    omega
  refine ⟨hex, ?_⟩
  rw [log_InitLog]
  by_cases hi : InitLog.infoLevel m S = true <;> by_cases hw : InitLog.warnLevel m S = true
  · exact absurd ⟨hi, hw⟩ hex
  all_goals simp [hi, hw]

/-- C4: for every minimum severity m and every severity S strictly below m,
neither the info route nor the warn route accepts S, and a log call at S
through the logger of InitLog writes to neither sink. -/
theorem below_floor_dropped (d f e : String) (a b g : Int) (m S : Level)
    (rt : zap.Runtime) (msg : String) (fields : List Field) (h : S < m) :
    InitLog.infoLevel m S = false ∧ InitLog.warnLevel m S = false
    ∧ zap.log (InitLog d f e a b g m) rt S msg fields = [] := by
  have hi : InitLog.infoLevel m S = false := by
    rw [← Bool.not_eq_true, infoLevel_eq_true]
    simp only [Level, WarnLevel] at *
    omega
  have hw : InitLog.warnLevel m S = false := by
    rw [← Bool.not_eq_true, warnLevel_eq_true]
    simp only [Level, WarnLevel] at *
    omega
  refine ⟨hi, hw, ?_⟩
  rw [log_InitLog]
  simp [hi, hw]

/-- Witness of C4: with the floor at Warn, an Info record reaches neither sink. -/
theorem below_floor_dropped_witness :
    InitLog.infoLevel WarnLevel InfoLevel = false ∧ InitLog.warnLevel WarnLevel InfoLevel = false
    ∧ zap.log (InitLog "/var/log/app" "info.log" "err.log" 10 5 30 WarnLevel)
        sampleRuntime InfoLevel "started" [] = [] :=
  below_floor_dropped "/var/log/app" "info.log" "err.log" 10 5 30 WarnLevel InfoLevel
    sampleRuntime "started" [] (by decide)

/-- C5, as stated, fails: with the floor at Error, a Warn record (a severity
at or above Warn) is rejected by the warn route and written to no sink. -/
theorem warn_record_below_floor_not_written :
    WarnLevel ≤ WarnLevel
    ∧ InitLog.warnLevel ErrorLevel WarnLevel = false
    ∧ zap.log (InitLog "/var/log/app" "info.log" "err.log" 10 5 30 ErrorLevel)
        sampleRuntime WarnLevel "disk almost full" [] = [] := by
  decide

/-- C5, amended: for every severity S at or above Warn the info route rejects
S, whatever the minimum severity m; when S is also at or above m, the warn
route accepts S and the log call makes exactly one write, to the warn sink
(the sink of the path logDir + "/" + errFile); when S is below m, the warn
route rejects S too and the log call writes to neither sink. -/
theorem warn_record_to_warn_sink_only (d f e : String) (a b g : Int) (m S : Level)
    (rt : zap.Runtime) (msg : String) (fields : List Field) (hS : WarnLevel ≤ S) :
    InitLog.infoLevel m S = false
    ∧ (m ≤ S →
        InitLog.warnLevel m S = true
        ∧ (zap.log (InitLog d f e a b g m) rt S msg fields).map Prod.fst
            = [getWriter (d ++ "/" ++ e) a b g])
    ∧ (S < m →
        InitLog.warnLevel m S = false
        ∧ zap.log (InitLog d f e a b g m) rt S msg fields = []) := by
  have hi : InitLog.infoLevel m S = false := by
    rw [← Bool.not_eq_true, infoLevel_eq_true]
    simp only [Level, WarnLevel] at *
    omega
  refine ⟨hi, fun hm => ?_, fun hlt => ?_⟩
  · have hw : InitLog.warnLevel m S = true := (warnLevel_eq_true m S).2 ⟨hS, hm⟩
    refine ⟨hw, ?_⟩
    rw [log_InitLog]
    simp [hi, hw]
  · have hw : InitLog.warnLevel m S = false := by
      rw [← Bool.not_eq_true, warnLevel_eq_true]
      simp only [Level, WarnLevel] at *
      omega
    refine ⟨hw, ?_⟩
    rw [log_InitLog]
    simp [hi, hw]

/-- Witness of the amended C5: with the floor at Info, an Error record is
written once, to the warn sink. -/
theorem warn_record_to_warn_sink_only_witness :
    InitLog.infoLevel InfoLevel ErrorLevel = false
    ∧ (InfoLevel ≤ ErrorLevel →
        InitLog.warnLevel InfoLevel ErrorLevel = true
        ∧ (zap.log (InitLog "/var/log/app" "info.log" "err.log" 10 5 30 InfoLevel)
            sampleRuntime ErrorLevel "boom" []).map Prod.fst
            = [getWriter ("/var/log/app" ++ "/" ++ "err.log") 10 5 30])
    ∧ (ErrorLevel < InfoLevel →
        InitLog.warnLevel InfoLevel ErrorLevel = false
        ∧ zap.log (InitLog "/var/log/app" "info.log" "err.log" 10 5 30 InfoLevel)
            sampleRuntime ErrorLevel "boom" [] = []) :=
  warn_record_to_warn_sink_only "/var/log/app" "info.log" "err.log" 10 5 30 InfoLevel ErrorLevel
    sampleRuntime "boom" [] (by decide)

/-- C6, on the code: the encoder configuration of InitLog has an empty
stack-trace key, so for a record at Warn or above that the warn sink accepts,
with a non-empty captured stack trace, the one line written holds the members
level, time (unless the time is the zero time), file (when the caller is
defined) and msg and the caller-supplied fields, and no member for the stack
trace. -/
theorem stacktrace_not_emitted (d f e : String) (a b g : Int) (m S : Level)
    (rt : zap.Runtime) (msg : String) (fields : List Field)
    (hS : WarnLevel ≤ S) (hm : m ≤ S) (hstack : rt.Stack ≠ "") :
    InitLog.config.StacktraceKey = ""
    ∧ (∃ ent cores, zap.check (InitLog d f e a b g m) rt S msg = some (ent, cores)
        ∧ ent.Stack = rt.Stack ∧ ent.Stack ≠ "")
    ∧ zap.log (InitLog d f e a b g m) rt S msg fields =
        [(getWriter (d ++ "/" ++ e) a b g,
          [("level", CapitalLevelEncoder S [])]
          ++ (if rt.Now.IsZero = false then
                [("time", [Prim.str (rt.Now.Format "2006-01-02 15:04:05")])] else [])
          ++ (if rt.Caller.Defined = true then [("file", [Prim.str rt.Caller.TrimmedPath])] else [])
          ++ [("msg", [Prim.str msg])]
          ++ fields.map (fun x => (x.1, [x.2])))] := by
  have hi : InitLog.infoLevel m S = false := by
    rw [← Bool.not_eq_true, infoLevel_eq_true]
    simp only [Level, WarnLevel] at *
    omega
  have hw : InitLog.warnLevel m S = true := (warnLevel_eq_true m S).2 ⟨hS, hm⟩
  refine ⟨rfl, ?_, ?_⟩
  · have hchk := check_InitLog d f e a b g m S rt msg
    simp only [hi, hw, Bool.false_or, if_true] at hchk
    simp only [hS, if_true] at hchk
    exact ⟨_, _, hchk, rfl, hstack⟩
  · rw [log_InitLog]
    simp [hi, hw, EncodeEntry_config]

/-- Witness of C6 on the code: an Error record with a captured stack trace is
written to the warn sink as a line of the four members level, time, file, msg. -/
theorem stacktrace_not_emitted_witness :
    InitLog.config.StacktraceKey = ""
    ∧ (∃ ent cores,
        zap.check (InitLog "/var/log/app" "info.log" "err.log" 10 5 30 InfoLevel)
          sampleRuntime ErrorLevel "boom" = some (ent, cores)
        ∧ ent.Stack = sampleRuntime.Stack ∧ ent.Stack ≠ "")
    ∧ zap.log (InitLog "/var/log/app" "info.log" "err.log" 10 5 30 InfoLevel)
        sampleRuntime ErrorLevel "boom" [] =
        [(getWriter ("/var/log/app" ++ "/" ++ "err.log") 10 5 30,
          [("level", CapitalLevelEncoder ErrorLevel [])]
          ++ (if sampleRuntime.Now.IsZero = false then
                [("time", [Prim.str (sampleRuntime.Now.Format "2006-01-02 15:04:05")])] else [])
          ++ (if sampleRuntime.Caller.Defined = true then
                [("file", [Prim.str sampleRuntime.Caller.TrimmedPath])] else [])
          ++ [("msg", [Prim.str "boom"])]
          ++ ([] : List Field).map (fun x => (x.1, [x.2])))] :=
  stacktrace_not_emitted "/var/log/app" "info.log" "err.log" 10 5 30 InfoLevel ErrorLevel
    sampleRuntime "boom" [] (by decide) (by decide) (by decide)

/-- C7: for every minimum severity m at or above Warn, the info route accepts
no severity, every write of a log call goes to the warn sink, and a record
below Warn is written to neither sink; in particular with m = Warn a Debug
record and an Info record are written to neither sink. -/
theorem info_route_empty_when_floor_at_least_warn (d f e : String) (a b g : Int) (m : Level)
    (rt : zap.Runtime) (msg : String) (fields : List Field) (hm : WarnLevel ≤ m) :
    (∀ S : Level, InitLog.infoLevel m S = false)
    ∧ (∀ S : Level, (zap.log (InitLog d f e a b g m) rt S msg fields).map Prod.fst
          = if InitLog.warnLevel m S = true then [getWriter (d ++ "/" ++ e) a b g] else [])
    ∧ (∀ S : Level, S < WarnLevel → zap.log (InitLog d f e a b g m) rt S msg fields = [])
    ∧ zap.log (InitLog d f e a b g WarnLevel) rt DebugLevel msg fields = []
    ∧ zap.log (InitLog d f e a b g WarnLevel) rt InfoLevel msg fields = [] := by
  have hi : ∀ (k S : Level), WarnLevel ≤ k → InitLog.infoLevel k S = false := by
    intro k S hk
    rw [← Bool.not_eq_true, infoLevel_eq_true]
    simp only [Level, WarnLevel] at *
    omega
  have hw : ∀ (k S : Level), WarnLevel ≤ k → S < WarnLevel → InitLog.warnLevel k S = false := by
    intro k S hk hS
    rw [← Bool.not_eq_true, warnLevel_eq_true]
    simp only [Level, WarnLevel] at *
    omega
  refine ⟨fun S => hi m S hm, ?_, ?_, ?_, ?_⟩
  · intro S
    rw [log_InitLog]
    by_cases h : InitLog.warnLevel m S = true <;> simp [hi m S hm, h]
  · intro S hS
    rw [log_InitLog]
    simp [hi m S hm, hw m S hm hS]
  · rw [log_InitLog]
    simp [hi WarnLevel DebugLevel (le_refl _), hw WarnLevel DebugLevel (le_refl _) (by decide)]
  · rw [log_InitLog]
    simp [hi WarnLevel InfoLevel (le_refl _), hw WarnLevel InfoLevel (le_refl _) (by decide)]

/-- Witness of C7 at m = Error. -/
theorem info_route_empty_when_floor_at_least_warn_witness :
    (∀ S : Level, InitLog.infoLevel ErrorLevel S = false)
    ∧ (∀ S : Level,
        (zap.log (InitLog "/var/log/app" "info.log" "err.log" 10 5 30 ErrorLevel)
          sampleRuntime S "started" []).map Prod.fst
          = if InitLog.warnLevel ErrorLevel S = true
            then [getWriter ("/var/log/app" ++ "/" ++ "err.log") 10 5 30] else [])
    ∧ (∀ S : Level, S < WarnLevel →
        zap.log (InitLog "/var/log/app" "info.log" "err.log" 10 5 30 ErrorLevel)
          sampleRuntime S "started" [] = [])
    ∧ zap.log (InitLog "/var/log/app" "info.log" "err.log" 10 5 30 WarnLevel)
        sampleRuntime DebugLevel "started" [] = []
    ∧ zap.log (InitLog "/var/log/app" "info.log" "err.log" 10 5 30 WarnLevel)
        sampleRuntime InfoLevel "started" [] = [] :=
  info_route_empty_when_floor_at_least_warn "/var/log/app" "info.log" "err.log" 10 5 30
    ErrorLevel sampleRuntime "started" [] (by decide)

/-- C8: for every logDir, logFile, errFile, maxSize, maxBackups and maxAge
(any integers, zero and negative included), the tee of InitLog is the info
route on the sink of path logDir + "/" + logFile followed by the warn route on
the sink of path logDir + "/" + errFile, and each sink carries maxSize,
maxBackups and maxAge unchanged, with local time on and compression off. -/
theorem sinks_bound_to_routes (logDir logFile errFile : String)
    (maxSize maxBackups maxAge : Int) (logLevel : Level) :
    (InitLog logDir logFile errFile maxSize maxBackups maxAge logLevel).core =
      [ { enc := InitLog.config,
          out := { Filename := logDir ++ "/" ++ logFile, MaxSize := maxSize,
                   MaxBackups := maxBackups, MaxAge := maxAge,
                   LocalTime := true, Compress := false },
          LevelEnabler := InitLog.infoLevel logLevel },
        { enc := InitLog.config,
          out := { Filename := logDir ++ "/" ++ errFile, MaxSize := maxSize,
                   MaxBackups := maxBackups, MaxAge := maxAge,
                   LocalTime := true, Compress := false },
          LevelEnabler := InitLog.warnLevel logLevel } ] :=
  rfl

/-- C9, as stated, fails: a record logged with a caller-supplied field named
msg is written as a line whose keys are level, time, file, msg, msg, so the
standard key msg stands twice in it. -/
theorem caller_field_duplicates_standard_key :
    (zap.log (InitLog "/var/log/app" "info.log" "err.log" 10 5 30 InfoLevel)
        sampleRuntime InfoLevel "tick" [("msg", Prim.str "again")]).map
          (fun w => w.2.map Prod.fst)
      = [["level", "time", "file", "msg", "msg"]]
    ∧ ¬ (["level", "time", "file", "msg", "msg"] : List String).Nodup := by
  decide

/-- C9, amended: the encoder configuration of InitLog has the keys level, time,
msg and file, pairwise distinct and none empty, and no key for the logger name,
the function or the stack trace; for a record of any severity, the keys of
every line written are level, then time unless the time of the record is the
zero time, then file when the caller is defined, then msg, each once, followed
by the keys of the caller-supplied fields as given; the keys of the line are
free of duplicates exactly when the field keys are free of duplicates and none
of them is one of the standard keys written. -/
theorem standard_keys_then_fields (d f e : String) (a b g : Int) (m S : Level)
    (rt : zap.Runtime) (msg : String) (fields : List Field) (w : Write)
    (hw : w ∈ zap.log (InitLog d f e a b g m) rt S msg fields) :
    InitLog.config.LevelKey = "level" ∧ InitLog.config.TimeKey = "time"
    ∧ InitLog.config.MessageKey = "msg" ∧ InitLog.config.CallerKey = "file"
    ∧ [InitLog.config.LevelKey, InitLog.config.TimeKey, InitLog.config.MessageKey,
        InitLog.config.CallerKey].Nodup
    ∧ "" ∉ [InitLog.config.LevelKey, InitLog.config.TimeKey, InitLog.config.MessageKey,
        InitLog.config.CallerKey]
    ∧ InitLog.config.NameKey = "" ∧ InitLog.config.FunctionKey = ""
    ∧ InitLog.config.StacktraceKey = ""
    ∧ w.2.map Prod.fst =
        (["level"] ++ (if rt.Now.IsZero = false then ["time"] else [])
          ++ (if rt.Caller.Defined = true then ["file"] else []) ++ ["msg"])
        ++ fields.map Prod.fst
    ∧ (["level"] ++ (if rt.Now.IsZero = false then ["time"] else [])
          ++ (if rt.Caller.Defined = true then ["file"] else []) ++ ["msg"]).Nodup
    ∧ ((w.2.map Prod.fst).Nodup ↔
        ((fields.map Prod.fst).Nodup
          ∧ ∀ k ∈ fields.map Prod.fst,
              k ∉ (["level"] ++ (if rt.Now.IsZero = false then ["time"] else [])
                    ++ (if rt.Caller.Defined = true then ["file"] else []) ++ ["msg"]))) := by
  refine ⟨rfl, rfl, rfl, rfl, by decide, by decide, rfl, rfl, rfl, ?_⟩
  rw [log_InitLog] at hw
  have hline : w.2 = EncodeEntry InitLog.config
      { Level := S, Time := rt.Now, LoggerName := "", Message := msg, Caller := rt.Caller,
        Stack := if WarnLevel ≤ S then rt.Stack else "" } fields := by
    by_cases hi : InitLog.infoLevel m S = true <;> by_cases hwn : InitLog.warnLevel m S = true
    all_goals simp [hi, hwn] at hw
    · rcases hw with h1 | h1 <;> rw [h1]
    · rw [hw]
    · rw [hw]
  have hkeys : w.2.map Prod.fst =
      (["level"] ++ (if rt.Now.IsZero = false then ["time"] else [])
        ++ (if rt.Caller.Defined = true then ["file"] else []) ++ ["msg"])
      ++ fields.map Prod.fst := by
    rw [hline, EncodeEntry_config]
    by_cases hz : rt.Now.IsZero = false <;> by_cases hc : rt.Caller.Defined = true
    all_goals simp [hz, hc, Function.comp_def]
  have hstd : (["level"] ++ (if rt.Now.IsZero = false then ["time"] else [])
        ++ (if rt.Caller.Defined = true then ["file"] else []) ++ ["msg"]).Nodup := by
    by_cases hz : rt.Now.IsZero = false <;> by_cases hc : rt.Caller.Defined = true
    all_goals simp [hz, hc]
  refine ⟨hkeys, hstd, ?_⟩
  rw [hkeys, List.nodup_append]
  constructor
  · rintro ⟨_, hf, hdis⟩
    exact ⟨hf, fun k hk hstdk => hdis hstdk hk⟩
  · rintro ⟨hf, hno⟩
    exact ⟨hstd, hf, fun k hstdk hk => hno k hk hstdk⟩

/-- Witness of the amended C9: a Debug record with one field n, with the floor
at Debug. -/
theorem standard_keys_then_fields_witness :
    InitLog.config.LevelKey = "level" ∧ InitLog.config.TimeKey = "time"
    ∧ InitLog.config.MessageKey = "msg" ∧ InitLog.config.CallerKey = "file"
    ∧ [InitLog.config.LevelKey, InitLog.config.TimeKey, InitLog.config.MessageKey,
        InitLog.config.CallerKey].Nodup
    ∧ "" ∉ [InitLog.config.LevelKey, InitLog.config.TimeKey, InitLog.config.MessageKey,
        InitLog.config.CallerKey]
    ∧ InitLog.config.NameKey = "" ∧ InitLog.config.FunctionKey = ""
    ∧ InitLog.config.StacktraceKey = ""
    ∧ ((getWriter "/var/log/app/info.log" 10 5 30,
          [("level", [Prim.str "DEBUG"]), ("time", [Prim.str "2024-05-06 07:08:09"]),
           ("file", [Prim.str "app/main.go:14"]), ("msg", [Prim.str "tick"]),
           ("n", [Prim.int64 3])]) : Write).2.map Prod.fst =
        (["level"] ++ (if sampleRuntime.Now.IsZero = false then ["time"] else [])
          ++ (if sampleRuntime.Caller.Defined = true then ["file"] else []) ++ ["msg"])
        ++ [(("n", Prim.int64 3) : Field)].map Prod.fst
    ∧ (["level"] ++ (if sampleRuntime.Now.IsZero = false then ["time"] else [])
          ++ (if sampleRuntime.Caller.Defined = true then ["file"] else []) ++ ["msg"]).Nodup
    ∧ ((((getWriter "/var/log/app/info.log" 10 5 30,
          [("level", [Prim.str "DEBUG"]), ("time", [Prim.str "2024-05-06 07:08:09"]),
           ("file", [Prim.str "app/main.go:14"]), ("msg", [Prim.str "tick"]),
           ("n", [Prim.int64 3])]) : Write).2.map Prod.fst).Nodup ↔
        (([(("n", Prim.int64 3) : Field)].map Prod.fst).Nodup
          ∧ ∀ k ∈ [(("n", Prim.int64 3) : Field)].map Prod.fst,
              k ∉ (["level"] ++ (if sampleRuntime.Now.IsZero = false then ["time"] else [])
                    ++ (if sampleRuntime.Caller.Defined = true then ["file"] else [])
                    ++ ["msg"]))) :=
  standard_keys_then_fields "/var/log/app" "info.log" "err.log" 10 5 30 DebugLevel DebugLevel
    sampleRuntime "tick" [("n", Prim.int64 3)]
    (getWriter "/var/log/app/info.log" 10 5 30,
      [("level", [Prim.str "DEBUG"]), ("time", [Prim.str "2024-05-06 07:08:09"]),
       ("file", [Prim.str "app/main.go:14"]), ("msg", [Prim.str "tick"]),
       ("n", [Prim.int64 3])])
    (by decide)

/-- C10: for every duration of n nanoseconds, n an int64, the duration encoder
of InitLog appends the quotient of n by 1,000,000 truncated toward zero: the
quotient q leaves a remainder of magnitude below 1,000,000 that has the sign of
n; a duration of exactly k milliseconds is rendered as k, and a duration of
magnitude below one millisecond, positive or negative, as 0. -/
theorem duration_encoded_as_whole_milliseconds (n : Int) (enc : PrimitiveArrayEncoder)
    (hlo : minInt64 ≤ n) (hhi : n ≤ maxInt64) :
    InitLog.config.EncodeDuration.map (fun enco => enco n enc)
      = some (enc ++ [Prim.int64 (Int.tdiv n 1000000)])
    ∧ (∃ r : Int, n = Int.tdiv n 1000000 * 1000000 + r ∧ -1000000 < r ∧ r < 1000000
        ∧ (0 ≤ n → 0 ≤ r) ∧ (n ≤ 0 → r ≤ 0))
    ∧ (∀ k : Int, n = k * 1000000 →
        InitLog.config.EncodeDuration.map (fun enco => enco n enc) = some (enc ++ [Prim.int64 k]))
    ∧ (-1000000 < n → n < 1000000 →
        InitLog.config.EncodeDuration.map (fun enco => enco n enc) = some (enc ++ [Prim.int64 0])) := by
  have hval : InitLog.config.EncodeDuration.map (fun enco => enco n enc)
      = some (enc ++ [Prim.int64 (Int.tdiv n 1000000)]) := by
    simp [InitLog.config, AppendInt64, divInt64_million n hlo hhi]
  refine ⟨hval, ?_, ?_, ?_⟩
  · refine ⟨n - Int.tdiv n 1000000 * 1000000, by ring, ?_⟩
    rcases tdiv_million_cases n with ⟨h0, hq⟩ | ⟨h0, hq⟩
    · rw [hq]; omega
    · rw [hq]; omega
  · intro k hk
    rw [hval]
    have hq : Int.tdiv n 1000000 = k := by
      rw [hk]; exact Int.mul_tdiv_cancel k (by decide)
    rw [hq]
  · intro h1 h2
    rw [hval]
    have hq : Int.tdiv n 1000000 = 0 := by
      rcases tdiv_million_cases n with ⟨h0, hq⟩ | ⟨h0, hq⟩
      · rw [hq]; omega
      · rw [hq]; omega
    rw [hq]

/-- Witness of C10: a duration of minus one and a half milliseconds is
rendered as -1. -/
theorem duration_encoded_as_whole_milliseconds_witness :
    InitLog.config.EncodeDuration.map (fun enco => enco (-1500000) [])
      = some ([] ++ [Prim.int64 (Int.tdiv (-1500000) 1000000)])
    ∧ (∃ r : Int, -1500000 = Int.tdiv (-1500000) 1000000 * 1000000 + r ∧ -1000000 < r
        ∧ r < 1000000 ∧ ((0 : Int) ≤ -1500000 → 0 ≤ r) ∧ ((-1500000 : Int) ≤ 0 → r ≤ 0))
    ∧ (∀ k : Int, -1500000 = k * 1000000 →
        InitLog.config.EncodeDuration.map (fun enco => enco (-1500000) [])
          = some ([] ++ [Prim.int64 k]))
    ∧ ((-1000000 : Int) < -1500000 → (-1500000 : Int) < 1000000 →
        InitLog.config.EncodeDuration.map (fun enco => enco (-1500000) [])
          = some ([] ++ [Prim.int64 0])) :=
  duration_encoded_as_whole_milliseconds (-1500000) [] (by decide) (by decide)

end logger
